import Mathlib

/-
Verification of the dinner-group membership and restaurant-aggregation core of
the dinnernotonyourown application.  The definitions below are a shallow
embedding of the two source files:

  * `src/app/utils/providers/google-places.server.ts` (provider client and, in
    the same file, the restaurant service: `getNearbyRestaurants`,
    `calculateDistance`, `getAllRestaurantDetails`, `joinDinnerGroup`,
    `leaveDinnerGroup`);
  * `src/app/routes/users+/$username_+/restaurants.tsx` (the `loader`
    partition/filter/sort/truncate pipeline).

The persistent store (Prisma) is modelled as an explicit in-memory state
(`Store`): `findUnique` becomes `List.find?` (justified by the uniqueness
invariants proved below), `delete` becomes `List.filter`, `count` becomes
`List.countP`, `create` appends a row with a fresh id.  JavaScript numbers are
modelled as rationals (ℚ) wherever the code only compares and subtracts them,
and as reals (ℝ) for the trigonometric distance function.  `Array.prototype.sort`
with a comparator `cmp` is the stable `List.mergeSort` with the boolean order
`fun a b => cmp a b ≤ 0`.
-/

namespace DinnerApp

/-- A row of the `DinnerGroup` table: id plus the venue it is for
(`restaurantId` carries a unique constraint in the schema). -/
structure DinnerGroup where
  id : Nat
  restaurantId : String
deriving DecidableEq, Repr

/-- A row of the `Attendee` table: id, the user (unique constraint on
`userId`), and the owning group. -/
structure Attendee where
  id : Nat
  userId : String
  dinnerGroupId : Nat
deriving DecidableEq, Repr

/-- The mutable state the membership operations act on: the two tables, fresh-id
counters standing in for the store's id generation, and whether the
`all-restaurants` LRU-cache entry is currently present. -/
structure Store where
  groups : List DinnerGroup
  attendees : List Attendee
  nextGroupId : Nat
  nextAttendeeId : Nat
  allRestaurantsCached : Bool
deriving DecidableEq, Repr

/-- The empty membership state. -/
def Store.empty : Store :=
  { groups := [], attendees := [], nextGroupId := 0, nextAttendeeId := 0,
    allRestaurantsCached := false }

/-- The `prisma.attendee.delete` + count + conditional `prisma.dinnerGroup.delete`
block that appears verbatim both in the switching branch of `joinDinnerGroup`
(source lines 279-294) and in `leaveDinnerGroup` (source lines 332-346). -/
def removeAttendeeAndEmptyGroup (s : Store) (a : Attendee) : Store :=
  let attendees := s.attendees.filter (fun x => x.id != a.id)
  let remainingAttendees := attendees.countP (fun x => x.dinnerGroupId == a.dinnerGroupId)
  let groups :=
    if remainingAttendees == 0 then s.groups.filter (fun g => g.id != a.dinnerGroupId)
    else s.groups
  { s with attendees := attendees, groups := groups }

/-- The tail of `joinDinnerGroup` (source lines 296-318): find-or-create the
dinner group for the restaurant, create the attendee row, and drop the
`all-restaurants` cache entry. -/
def joinTail (s : Store) (userId restaurantId : String) : Store :=
  match s.groups.find? (fun g => g.restaurantId == restaurantId) with
  | some dinnerGroup =>
    { s with
      attendees := s.attendees ++
        [{ id := s.nextAttendeeId, userId := userId, dinnerGroupId := dinnerGroup.id }],
      nextAttendeeId := s.nextAttendeeId + 1,
      allRestaurantsCached := false }
  | none =>
    let dinnerGroup : DinnerGroup := { id := s.nextGroupId, restaurantId := restaurantId }
    { s with
      groups := s.groups ++ [dinnerGroup],
      nextGroupId := s.nextGroupId + 1,
      attendees := s.attendees ++
        [{ id := s.nextAttendeeId, userId := userId, dinnerGroupId := dinnerGroup.id }],
      nextAttendeeId := s.nextAttendeeId + 1,
      allRestaurantsCached := false }

/-- `joinDinnerGroup(userId, restaurantId)` from the source (lines 266-319): if
the user is already in the group for this restaurant, return unchanged (note:
this early return happens before the cache delete); if in a different group,
remove them (deleting the group if it became empty); then find-or-create the
target group, add the attendee, and drop the cache entry. -/
def joinDinnerGroup (userId restaurantId : String) (s : Store) : Store :=
  match s.attendees.find? (fun a => a.userId == userId) with
  | some existingAttendee =>
    if ((s.groups.find? (fun g => g.id == existingAttendee.dinnerGroupId)).map
          DinnerGroup.restaurantId) == some restaurantId then
      s
    else
      joinTail (removeAttendeeAndEmptyGroup s existingAttendee) userId restaurantId
  | none => joinTail s userId restaurantId

/-- `leaveDinnerGroup(userId)` from the source (lines 321-350): no-op when the
user has no attendee row (again before the cache delete), otherwise delete the
row, delete the group if it became empty, and drop the cache entry. -/
def leaveDinnerGroup (userId : String) (s : Store) : Store :=
  match s.attendees.find? (fun a => a.userId == userId) with
  | none => s
  | some attendee =>
    let s1 := removeAttendeeAndEmptyGroup s attendee
    { s1 with allRestaurantsCached := false }

/-- The venue the user is currently attached to, read the way the code reads it:
`findUnique` attendee by `userId`, then the included dinner group's
`restaurantId`. -/
def currentVenue (s : Store) (userId : String) : Option String :=
  (s.attendees.find? (fun a => a.userId == userId)).bind fun a =>
    (s.groups.find? (fun g => g.id == a.dinnerGroupId)).map DinnerGroup.restaurantId

/-- One membership operation, as fired by the route action. -/
inductive MembershipOp where
  | join (userId restaurantId : String)
  | leave (userId : String)
deriving DecidableEq, Repr

/-- Apply one membership operation to the store. -/
def applyOp (s : Store) : MembershipOp → Store
  | .join u v => joinDinnerGroup u v s
  | .leave u => leaveDinnerGroup u s

/-- Run a sequence of membership operations from a given state. -/
def runOps (s : Store) (ops : List MembershipOp) : Store :=
  ops.foldl applyOp s

/-- The store consistency invariant maintained by the membership operations:
at most one attendee row per user, unique attendee ids below the counter,
unique group ids and unique group restaurant ids below the counter, every
attendee's group exists, and every group has at least one attendee. -/
def Inv (s : Store) : Prop :=
  (∀ a ∈ s.attendees, ∀ b ∈ s.attendees, a.userId = b.userId → a = b) ∧
  (∀ a ∈ s.attendees, ∀ b ∈ s.attendees, a.id = b.id → a = b) ∧
  (∀ a ∈ s.attendees, a.id < s.nextAttendeeId) ∧
  (∀ g ∈ s.groups, ∀ g2 ∈ s.groups, g.id = g2.id → g = g2) ∧
  (∀ g ∈ s.groups, ∀ g2 ∈ s.groups, g.restaurantId = g2.restaurantId → g = g2) ∧
  (∀ g ∈ s.groups, g.id < s.nextGroupId) ∧
  (∀ a ∈ s.attendees, ∃ g ∈ s.groups, g.id = a.dinnerGroupId) ∧
  (∀ g ∈ s.groups, ∃ a ∈ s.attendees, a.dinnerGroupId = g.id)

/-- One entry of the provider's nearby-search `results` array. -/
structure PlaceResult where
  place_id : String
  name : String
  price_level : Option Int
  rating : Option ℚ
  lat : ℚ
  lng : ℚ
  vicinity : String
deriving DecidableEq, Repr

/-- The provider's nearby-search response: results plus a status string. -/
structure NearbySearchResponse where
  results : List PlaceResult
  status : String
deriving DecidableEq, Repr

/-- One photo entry of a place-details response. -/
structure PlacePhoto where
  photo_reference : String
deriving DecidableEq, Repr

/-- The `result` object of a place-details response. -/
structure PlaceDetailsResult where
  photos : Option (List PlacePhoto)
  url : Option String
deriving DecidableEq, Repr

/-- The provider's place-details response. -/
structure PlaceDetailsResponse where
  result : PlaceDetailsResult
  status : String
deriving DecidableEq, Repr

/-- The normalized venue shape returned by `getNearbyRestaurants`. -/
structure Restaurant where
  id : String
  name : String
  priceLevel : Option Int
  rating : Option ℚ
  lat : ℚ
  lng : ℚ
  photoRef : Option String
  mapsUrl : Option String
deriving DecidableEq, Repr

/-- The per-place body of the `Promise.all` map in `getNearbyRestaurants`
(source lines 74-107): on a non-OK details status the venue degrades to base
fields (no `photoRef`, no `mapsUrl`); otherwise `photos?.[0]?.photo_reference`
and `result.url` are merged in. -/
def placeWithDetails (details : String → PlaceDetailsResponse) (place : PlaceResult) :
    Restaurant :=
  let placeDetailsData := details place.place_id
  if placeDetailsData.status != "OK" then
    { id := place.place_id, name := place.name, priceLevel := place.price_level,
      rating := place.rating, lat := place.lat, lng := place.lng,
      photoRef := none, mapsUrl := none }
  else
    { id := place.place_id, name := place.name, priceLevel := place.price_level,
      rating := place.rating, lat := place.lat, lng := place.lng,
      photoRef := (placeDetailsData.result.photos.bind List.head?).map
        PlacePhoto.photo_reference,
      mapsUrl := placeDetailsData.result.url }

/-- `getNearbyRestaurants` (source lines 47-111), with the two HTTP fetches
abstracted as the already-parsed nearby-search response and a function from
place id to its details response.  A status other than OK / ZERO_RESULTS throws
(modelled as `Except.error` carrying the thrown message); ZERO_RESULTS or an
empty results array returns the empty list; otherwise every result is enriched
via `placeWithDetails`. -/
def getNearbyRestaurants (nearbySearchData : NearbySearchResponse)
    (details : String → PlaceDetailsResponse) : Except String (List Restaurant) :=
  if nearbySearchData.status != "OK" && nearbySearchData.status != "ZERO_RESULTS" then
    Except.error ("Google Places API error: " ++ nearbySearchData.status)
  else if nearbySearchData.status == "ZERO_RESULTS" || nearbySearchData.results.length == 0 then
    Except.ok []
  else
    Except.ok (nearbySearchData.results.map (placeWithDetails details))

/-- Degrees-to-radians helper from the source. -/
noncomputable def toRad (degrees : ℝ) : ℝ :=
  degrees * (Real.pi / 180)

/-- JavaScript's `Math.atan2(y, x)`, over the reals. -/
noncomputable def atan2 (y x : ℝ) : ℝ :=
  if 0 < x then Real.arctan (y / x)
  else if x < 0 ∧ 0 ≤ y then Real.arctan (y / x) + Real.pi
  else if x < 0 ∧ y < 0 then Real.arctan (y / x) - Real.pi
  else if x = 0 ∧ 0 < y then Real.pi / 2
  else if x = 0 ∧ y < 0 then -(Real.pi / 2)
  else 0

/-- `parseFloat(d.toFixed(1))`: round to one decimal place. -/
noncomputable def roundTo1 (x : ℝ) : ℝ :=
  (round (10 * x) : ℤ) / 10

/-- `calculateDistance` (source lines 137-148): haversine great-circle distance
in miles with Earth radius 3958.8, rounded to one decimal place. -/
noncomputable def calculateDistance (lat1 lng1 lat2 lng2 : ℝ) : ℝ :=
  let R : ℝ := 3958.8
  let dLat := toRad (lat2 - lat1)
  let dLng := toRad (lng2 - lng1)
  let a :=
    Real.sin (dLat / 2) * Real.sin (dLat / 2) +
    Real.cos (toRad lat1) * Real.cos (toRad lat2) * Real.sin (dLng / 2) * Real.sin (dLng / 2)
  let c := 2 * atan2 (Real.sqrt a) (Real.sqrt (1 - a))
  let distance := R * c
  roundTo1 distance

/-- A row of the `Restaurant` table (what `prisma.restaurant.findMany` returns). -/
structure DbRestaurant where
  id : String
  name : String
  priceLevel : Option Int
  rating : Option ℚ
  lat : ℚ
  lng : ℚ
  photoRef : Option String
  mapsUrl : Option String
deriving DecidableEq, Repr

/-- The aggregated per-venue record served to the route (`RestaurantWithDetails`
in the source). -/
structure RestaurantWithDetails where
  id : String
  name : String
  priceLevel : Option Int
  rating : Option ℚ
  lat : ℚ
  lng : ℚ
  photoRef : Option String
  mapsUrl : Option String
  distance : ℚ
  attendeeCount : Nat
  isUserAttending : Bool
deriving DecidableEq, Repr

/-- The combination step of `getAllRestaurantDetails` (source lines 216-263):
the dinner groups are read fresh with their attendee counts, the requesting
user's current venue is resolved when a `userId` is supplied, and each database
restaurant is mapped to an aggregated record.  The distance computation is a
parameter (`distf`); the source instantiates it with `calculateDistance`, which
is modelled separately over ℝ. -/
def getAllRestaurantDetails (distf : ℚ → ℚ → ℚ → ℚ → ℚ) (userLat userLng : ℚ)
    (s : Store) (dbRestaurants : List DbRestaurant) (userId : Option String) :
    List RestaurantWithDetails :=
  let dinnerGroups := s.groups.map fun g =>
    (g.restaurantId, s.attendees.countP (fun a => a.dinnerGroupId == g.id))
  let userAttendingRestaurantId : Option String :=
    match userId with
    | some uid => currentVenue s uid
    | none => none
  dbRestaurants.map fun restaurant =>
    let dinnerGroup := dinnerGroups.find? (fun g => g.fst == restaurant.id)
    { id := restaurant.id, name := restaurant.name, priceLevel := restaurant.priceLevel,
      rating := restaurant.rating, lat := restaurant.lat, lng := restaurant.lng,
      photoRef := restaurant.photoRef, mapsUrl := restaurant.mapsUrl,
      distance := distf userLat userLng restaurant.lat restaurant.lng,
      attendeeCount := (dinnerGroup.map Prod.snd).getD 0,
      isUserAttending := userAttendingRestaurantId == some restaurant.id }

/-- The optional query filters of the route loader, already parsed to integers
(`parseInt` of the `distance`, `rating` and `price` search params; `none` when
the param is absent). -/
structure Filters where
  distanceParam : Option Int
  ratingParam : Option Int
  priceParam : Option Int
deriving DecidableEq, Repr

/-- The comparator of the nearby list (source lines 83-87) turned into the
boolean order used by the stable sort: `a` may precede `b` iff
`cmp(a, b) <= 0` where `cmp` returns the rating difference when nonzero and the
distance difference otherwise. -/
def nearbyLe (a b : RestaurantWithDetails) : Bool :=
  let ratingDiff := b.rating.getD 0 - a.rating.getD 0
  if ratingDiff != 0 then decide (ratingDiff ≤ 0)
  else decide (a.distance - b.distance ≤ 0)

/-- The attendance-list comparator (source line 51) as a boolean order:
`cmp(a, b) = b.attendeeCount - a.attendeeCount <= 0`. -/
def attendanceLe (a b : RestaurantWithDetails) : Bool :=
  decide ((b.attendeeCount : Int) - (a.attendeeCount : Int) ≤ 0)

/-- The `restaurantsWithAttendance` list of the loader (source lines 49-51):
venues with at least one attendee, sorted by descending attendee count. -/
def restaurantsWithAttendance (allRestaurants : List RestaurantWithDetails) :
    List RestaurantWithDetails :=
  (allRestaurants.filter (fun restaurant => decide (restaurant.attendeeCount > 0))).mergeSort
    attendanceLe

/-- The `restaurantsNearby` list of the loader (source lines 54-90): the
zero-attendee venues, run through the three optional filters in source order,
sorted by the rating/distance comparator, and cut to the first 15. -/
def restaurantsNearby (f : Filters) (allRestaurants : List RestaurantWithDetails) :
    List RestaurantWithDetails :=
  let nearby0 := allRestaurants.filter (fun restaurant => restaurant.attendeeCount == 0)
  let nearby1 :=
    match f.distanceParam with
    | some maxDistance => nearby0.filter (fun r : RestaurantWithDetails => decide (r.distance ≤ (maxDistance : ℚ)))
    | none => nearby0
  let nearby2 :=
    match f.ratingParam with
    | some minRating => nearby1.filter (fun r : RestaurantWithDetails => decide ((minRating : ℚ) ≤ r.rating.getD 0))
    | none => nearby1
  let nearby3 :=
    match f.priceParam with
    | some exactPrice => nearby2.filter (fun r : RestaurantWithDetails => r.priceLevel == some exactPrice)
    | none => nearby2
  (nearby3.mergeSort nearbyLe).take 15

/-- Spec-side combined filter predicate for the nearby partition, following the
spec's words: maximum distance (inclusive), minimum rating (inclusive, missing
rating treated as 0), exact price tier (missing tier excluded when a price
filter is active); each predicate optional. -/
def nearbySpecPred (f : Filters) (r : RestaurantWithDetails) : Bool :=
  (match f.distanceParam with
   | some maxDistance => decide (r.distance ≤ (maxDistance : ℚ))
   | none => true) &&
  (match f.ratingParam with
   | some minRating => decide ((minRating : ℚ) ≤ r.rating.getD 0)
   | none => true) &&
  (match f.priceParam with
   | some exactPrice => r.priceLevel == some exactPrice
   | none => true)

/-- Spec-side order for the nearby partition, following the spec's words:
rating descending (missing rating treated as 0), ties broken by distance
ascending. -/
def nearbySpecLe (a b : RestaurantWithDetails) : Bool :=
  decide (b.rating.getD 0 < a.rating.getD 0) ||
    (b.rating.getD 0 == a.rating.getD 0 && decide (a.distance ≤ b.distance))

/-- Spec-side order for the attendance partition: attendee count descending. -/
def attendanceSpecLe (a b : RestaurantWithDetails) : Bool :=
  decide (b.attendeeCount ≤ a.attendeeCount)

/-- A store in which user "u" is already attached to venue "v" and the
all-restaurants cache entry is present. -/
def cachedJoinedStore : Store :=
  { groups := [{ id := 0, restaurantId := "v" }],
    attendees := [{ id := 0, userId := "u", dinnerGroupId := 0 }],
    nextGroupId := 1, nextAttendeeId := 1, allRestaurantsCached := true }

/-- A concrete nearby-search response with two results, for witnesses. -/
def witnessSearchResponse : NearbySearchResponse :=
  { results := [
      { place_id := "a", name := "A", price_level := some 1, rating := some 4,
        lat := 1, lng := 2, vicinity := "x" },
      { place_id := "b", name := "B", price_level := none, rating := none,
        lat := 3, lng := 4, vicinity := "y" }],
    status := "OK" }

/-- A concrete details lookup that succeeds for place "a" and fails for every
other place, for witnesses. -/
def witnessDetails : String → PlaceDetailsResponse := fun pid =>
  if pid == "a" then
    { result := { photos := some [{ photo_reference := "ph" }], url := some "mapurl" },
      status := "OK" }
  else
    { result := { photos := none, url := none }, status := "UNKNOWN_ERROR" }

/-- C3: `getNearbyRestaurants` returns the empty list when the nearby-search
status is ZERO_RESULTS, succeeds when it is OK, and for any other status raises
the provider error to the caller without returning a result. -/
theorem getNearbyRestaurants_status (nearbySearchData : NearbySearchResponse)
    (details : String → PlaceDetailsResponse) :
    (nearbySearchData.status = "ZERO_RESULTS" →
      getNearbyRestaurants nearbySearchData details = Except.ok []) ∧
    (nearbySearchData.status = "OK" →
      ∃ l, getNearbyRestaurants nearbySearchData details = Except.ok l) ∧
    (nearbySearchData.status ≠ "OK" → nearbySearchData.status ≠ "ZERO_RESULTS" →
      getNearbyRestaurants nearbySearchData details =
        Except.error ("Google Places API error: " ++ nearbySearchData.status)) := by
  refine ⟨fun h => ?_, fun h => ?_, fun h1 h2 => ?_⟩
  · simp [getNearbyRestaurants, h]
  · by_cases hlen : nearbySearchData.results.length = 0
    · exact ⟨[], by simp [getNearbyRestaurants, h, hlen]⟩
    · exact ⟨nearbySearchData.results.map (placeWithDetails details),
        by simp [getNearbyRestaurants, h, hlen]⟩
  · simp [getNearbyRestaurants, h1, h2]

/-- C4: when the nearby search succeeds, the whole call succeeds and each
returned venue lines up with its search result: base fields always preserved,
and a venue whose details lookup failed has no photo reference and no map URL,
while a venue whose details lookup succeeded carries its photo/map fields. -/
theorem detailFailureDegradesSingleVenue (nearbySearchData : NearbySearchResponse)
    (details : String → PlaceDetailsResponse) (hOK : nearbySearchData.status = "OK") :
    ∃ l, getNearbyRestaurants nearbySearchData details = Except.ok l ∧
      List.Forall₂ (fun (place : PlaceResult) (r : Restaurant) =>
          r.id = place.place_id ∧ r.name = place.name ∧
          r.priceLevel = place.price_level ∧ r.rating = place.rating ∧
          r.lat = place.lat ∧ r.lng = place.lng ∧
          ((details place.place_id).status ≠ "OK" →
            r.photoRef = none ∧ r.mapsUrl = none) ∧
          ((details place.place_id).status = "OK" →
            r.photoRef = ((details place.place_id).result.photos.bind List.head?).map
                PlacePhoto.photo_reference ∧
            r.mapsUrl = (details place.place_id).result.url))
        nearbySearchData.results l := by
  refine ⟨nearbySearchData.results.map (placeWithDetails details), ?_, ?_⟩
  · by_cases hlen : nearbySearchData.results.length = 0
    · have hnil : nearbySearchData.results = [] := List.eq_nil_of_length_eq_zero hlen
      simp [getNearbyRestaurants, hOK, hnil]
    · simp [getNearbyRestaurants, hOK, hlen]
  · rw [List.forall₂_map_right_iff, List.forall₂_same]
    intro p hp
    by_cases hd : (details p.place_id).status = "OK"
    · simp [placeWithDetails, hd]
    · simp [placeWithDetails, hd]

/-- Witness for C4 at a concrete batch of two venues, the details lookup
failing for the second one. -/
theorem detailFailureDegradesSingleVenue_witness :
    ∃ l, getNearbyRestaurants witnessSearchResponse witnessDetails = Except.ok l ∧
      List.Forall₂ (fun (place : PlaceResult) (r : Restaurant) =>
          r.id = place.place_id ∧ r.name = place.name ∧
          r.priceLevel = place.price_level ∧ r.rating = place.rating ∧
          r.lat = place.lat ∧ r.lng = place.lng ∧
          ((witnessDetails place.place_id).status ≠ "OK" →
            r.photoRef = none ∧ r.mapsUrl = none) ∧
          ((witnessDetails place.place_id).status = "OK" →
            r.photoRef = ((witnessDetails place.place_id).result.photos.bind
                List.head?).map PlacePhoto.photo_reference ∧
            r.mapsUrl = (witnessDetails place.place_id).result.url))
        witnessSearchResponse.results l :=
  detailFailureDegradesSingleVenue witnessSearchResponse witnessDetails rfl

/-- C8: the distance function is a pure function of the four coordinates; it
vanishes on identical points and is symmetric in the two points. -/
theorem calculateDistance_zero_symm :
    (∀ x y : ℝ, calculateDistance x y x y = 0) ∧
    (∀ lat1 lng1 lat2 lng2 : ℝ,
      calculateDistance lat1 lng1 lat2 lng2 = calculateDistance lat2 lng2 lat1 lng1) := by
  constructor
  · intro x y
    simp [calculateDistance, toRad, atan2, roundTo1, Real.arctan_zero]
  · intro lat1 lng1 lat2 lng2
    simp only [calculateDistance]
    rw [show toRad (lat1 - lat2) = -(toRad (lat2 - lat1)) from by unfold toRad; ring,
        show toRad (lng1 - lng2) = -(toRad (lng2 - lng1)) from by unfold toRad; ring,
        neg_div, neg_div, Real.sin_neg, Real.sin_neg]
    ring_nf

/-- Helper: both branches of the tail of a join set the cache flag to false. -/
theorem joinTail_cache_false (s : Store) (u v : String) :
    (joinTail s u v).allRestaurantsCached = false := by
  unfold joinTail
  cases s.groups.find? (fun g => g.restaurantId == v) <;> rfl

/-- C7 counterexample: joining the venue the user is already attached to is a
no-op that happens before the cache delete, so the cached all-restaurants entry
survives this call. -/
theorem join_noop_keeps_cache :
    joinDinnerGroup "u" "v" cachedJoinedStore = cachedJoinedStore ∧
    (joinDinnerGroup "u" "v" cachedJoinedStore).allRestaurantsCached = true := by
  constructor <;> rfl

/-- C7 amended: a join that actually changes membership (the user is not
already attached to the target venue) drops the cache entry, and a leave for a
user that has an attendee row drops the cache entry; the early-return no-op
paths do not. -/
theorem membership_mutation_drops_cache :
    (∀ (s : Store) (u v : String), currentVenue s u ≠ some v →
      (joinDinnerGroup u v s).allRestaurantsCached = false) ∧
    (∀ (s : Store) (u : String),
      (s.attendees.find? (fun a => a.userId == u)).isSome →
      (leaveDinnerGroup u s).allRestaurantsCached = false) := by
  constructor
  · intro s u v h
    unfold joinDinnerGroup
    cases hf : s.attendees.find? (fun a => a.userId == u) with
    | none => exact joinTail_cache_false _ _ _
    | some a =>
      by_cases hbeq : (((s.groups.find? (fun g => g.id == a.dinnerGroupId)).map
          DinnerGroup.restaurantId) == some v) = true
      · exfalso
        apply h
        show (s.attendees.find? (fun a => a.userId == u)).bind _ = some v
        rw [hf]
        simpa using eq_of_beq hbeq
      · rw [Bool.not_eq_true] at hbeq
        simp only [hbeq, Bool.false_eq_true, if_false]
        exact joinTail_cache_false _ _ _
  · intro s u hsome
    unfold leaveDinnerGroup
    cases hf : s.attendees.find? (fun a => a.userId == u) with
    | none => rw [hf] at hsome; simp at hsome
    | some a => rfl

/-- Witness for C7's amended theorem: from the empty store, a join by a fresh
user and then a leave by that user both end with the cache entry absent. -/
theorem membership_mutation_drops_cache_witness :
    (joinDinnerGroup "u" "v" Store.empty).allRestaurantsCached = false ∧
    (leaveDinnerGroup "u" (joinDinnerGroup "u" "v" Store.empty)).allRestaurantsCached
      = false :=
  ⟨membership_mutation_drops_cache.1 Store.empty "u" "v" (by decide),
   membership_mutation_drops_cache.2 (joinDinnerGroup "u" "v" Store.empty) "u" (by decide)⟩

/-- Equation lemma: the attendee table after a removal. -/
theorem remove_attendees_eq (s : Store) (a : Attendee) :
    (removeAttendeeAndEmptyGroup s a).attendees =
      s.attendees.filter (fun x => x.id != a.id) := rfl

/-- Equation lemma: the group table after a removal. -/
theorem remove_groups_eq (s : Store) (a : Attendee) :
    (removeAttendeeAndEmptyGroup s a).groups =
      if ((s.attendees.filter (fun x => x.id != a.id)).countP
          (fun x => x.dinnerGroupId == a.dinnerGroupId)) == 0
      then s.groups.filter (fun g => g.id != a.dinnerGroupId)
      else s.groups := rfl

/-- Equation lemma: a removal leaves the id counters unchanged. -/
theorem remove_counters_eq (s : Store) (a : Attendee) :
    (removeAttendeeAndEmptyGroup s a).nextAttendeeId = s.nextAttendeeId ∧
    (removeAttendeeAndEmptyGroup s a).nextGroupId = s.nextGroupId := ⟨rfl, rfl⟩

/-- Equation lemma: the join tail when the group for the restaurant exists. -/
theorem joinTail_eq_found {s : Store} {u v : String} {dg : DinnerGroup}
    (h : s.groups.find? (fun g => g.restaurantId == v) = some dg) :
    joinTail s u v =
      { s with
        attendees := s.attendees ++
          [{ id := s.nextAttendeeId, userId := u, dinnerGroupId := dg.id }],
        nextAttendeeId := s.nextAttendeeId + 1,
        allRestaurantsCached := false } := by
  unfold joinTail
  rw [h]

/-- Equation lemma: the join tail when the group has to be created. -/
theorem joinTail_eq_new {s : Store} {u v : String}
    (h : s.groups.find? (fun g => g.restaurantId == v) = none) :
    joinTail s u v =
      { s with
        groups := s.groups ++ [{ id := s.nextGroupId, restaurantId := v }],
        nextGroupId := s.nextGroupId + 1,
        attendees := s.attendees ++
          [{ id := s.nextAttendeeId, userId := u, dinnerGroupId := s.nextGroupId }],
        nextAttendeeId := s.nextAttendeeId + 1,
        allRestaurantsCached := false } := by
  unfold joinTail
  rw [h]

/-- The removal step preserves the store invariant, and afterwards no attendee
row carries the removed attendee's user. -/
theorem inv_remove {s : Store} {a : Attendee} (ha : a ∈ s.attendees) (h : Inv s) :
    Inv (removeAttendeeAndEmptyGroup s a) ∧
      ∀ b ∈ (removeAttendeeAndEmptyGroup s a).attendees, b.userId ≠ a.userId := by
  obtain ⟨hU, hAid, hAlt, hGid, hGr, hGlt, hFk, hNe⟩ := h
  have hmemA : ∀ {b : Attendee}, b ∈ (removeAttendeeAndEmptyGroup s a).attendees →
      b ∈ s.attendees ∧ b.id ≠ a.id := by
    intro b hb
    rw [remove_attendees_eq] at hb
    have hmf := List.mem_filter.mp hb
    exact ⟨hmf.1, by simpa using hmf.2⟩
  have hmemA2 : ∀ {b : Attendee}, b ∈ s.attendees → b.id ≠ a.id →
      b ∈ (removeAttendeeAndEmptyGroup s a).attendees := by
    intro b hb hbid
    rw [remove_attendees_eq]
    exact List.mem_filter.mpr ⟨hb, by simpa using hbid⟩
  have hmemG : ∀ {g : DinnerGroup}, g ∈ (removeAttendeeAndEmptyGroup s a).groups →
      g ∈ s.groups := by
    intro g hg
    rw [remove_groups_eq] at hg
    split at hg
    · exact (List.mem_filter.mp hg).1
    · exact hg
  refine ⟨⟨?_, ?_, ?_, ?_, ?_, ?_, ?_, ?_⟩, ?_⟩
  · intro b hb c hc heq
    exact hU b (hmemA hb).1 c (hmemA hc).1 heq
  · intro b hb c hc heq
    exact hAid b (hmemA hb).1 c (hmemA hc).1 heq
  · rw [(remove_counters_eq s a).1]
    intro b hb
    exact hAlt b (hmemA hb).1
  · intro g hg g2 hg2 heq
    exact hGid g (hmemG hg) g2 (hmemG hg2) heq
  · intro g hg g2 hg2 heq
    exact hGr g (hmemG hg) g2 (hmemG hg2) heq
  · rw [(remove_counters_eq s a).2]
    intro g hg
    exact hGlt g (hmemG hg)
  · intro b hb
    obtain ⟨hbs, hbid⟩ := hmemA hb
    obtain ⟨g, hg, hgid⟩ := hFk b hbs
    rw [remove_groups_eq]
    split
    · next hz =>
      have hz0 : (s.attendees.filter (fun x => x.id != a.id)).countP
          (fun x => x.dinnerGroupId == a.dinnerGroupId) = 0 := by
        simpa using hz
      have hz1 := List.countP_eq_zero.mp hz0
      refine ⟨g, List.mem_filter.mpr ⟨hg, ?_⟩, hgid⟩
      have hgne : g.id ≠ a.dinnerGroupId := by
        intro hcontra
        have hb' : b ∈ s.attendees.filter (fun x => x.id != a.id) := by
          rw [remove_attendees_eq] at hb
          exact hb
        have hbne := hz1 b hb'
        apply hbne
        have : b.dinnerGroupId = a.dinnerGroupId := by rw [← hgid, hcontra]
        simp [this]
      simpa using hgne
    · exact ⟨g, hg, hgid⟩
  · intro g hg'
    rw [remove_groups_eq] at hg'
    split at hg'
    · next hz =>
      obtain ⟨hgs, hgneq⟩ := List.mem_filter.mp hg'
      have hgne : g.id ≠ a.dinnerGroupId := by simpa using hgneq
      obtain ⟨w, hw, hwg⟩ := hNe g hgs
      have hwa : w.id ≠ a.id := by
        intro hcontra
        have hweq : w = a := hAid w hw a ha hcontra
        apply hgne
        rw [← hwg, hweq]
      exact ⟨w, hmemA2 hw hwa, hwg⟩
    · next hz =>
      obtain ⟨w, hw, hwg⟩ := hNe g hg'
      by_cases hwa : w.id = a.id
      · have hweq : w = a := hAid w hw a ha hwa
        have hgid : g.id = a.dinnerGroupId := by rw [← hwg, hweq]
        have hpos : 0 < (s.attendees.filter (fun x => x.id != a.id)).countP
            (fun x => x.dinnerGroupId == a.dinnerGroupId) := by
          apply Nat.pos_of_ne_zero
          intro hzero
          apply hz
          simp [hzero]
        obtain ⟨x, hx, hxp⟩ := List.countP_pos_iff.mp hpos
        refine ⟨x, ?_, ?_⟩
        · rw [remove_attendees_eq]
          exact hx
        · rw [hgid]
          simpa using hxp
      · exact ⟨w, hmemA2 hw hwa, hwg⟩
  · intro b hb hbu
    obtain ⟨hbs, hbid⟩ := hmemA hb
    exact hbid (by rw [hU b hbs a ha hbu])

/-- The join tail preserves the invariant when no existing attendee row carries
the joining user. -/
theorem inv_joinTail {s : Store} {u v : String} (h : Inv s)
    (hu : ∀ b ∈ s.attendees, b.userId ≠ u) : Inv (joinTail s u v) := by
  obtain ⟨hU, hAid, hAlt, hGid, hGr, hGlt, hFk, hNe⟩ := h
  cases hfind : s.groups.find? (fun g => g.restaurantId == v) with
  | some dg =>
    rw [joinTail_eq_found hfind]
    have hdgmem : dg ∈ s.groups := List.mem_of_find?_eq_some hfind
    refine ⟨?_, ?_, ?_, ?_, ?_, ?_, ?_, ?_⟩
    · intro b hb c hc heq
      rcases List.mem_append.mp hb with hb' | hb' <;>
        rcases List.mem_append.mp hc with hc' | hc'
      · exact hU b hb' c hc' heq
      · exfalso
        apply hu b hb'
        rw [heq, List.mem_singleton.mp hc']
      · exfalso
        apply hu c hc'
        rw [← heq, List.mem_singleton.mp hb']
      · rw [List.mem_singleton.mp hb', List.mem_singleton.mp hc']
    · intro b hb c hc heq
      rcases List.mem_append.mp hb with hb' | hb' <;>
        rcases List.mem_append.mp hc with hc' | hc'
      · exact hAid b hb' c hc' heq
      · exfalso
        have hlt := hAlt b hb'
        rw [heq, List.mem_singleton.mp hc'] at hlt
        exact lt_irrefl _ hlt
      · exfalso
        have hlt := hAlt c hc'
        rw [← heq, List.mem_singleton.mp hb'] at hlt
        exact lt_irrefl _ hlt
      · rw [List.mem_singleton.mp hb', List.mem_singleton.mp hc']
    · intro b hb
      rcases List.mem_append.mp hb with hb' | hb'
      · exact Nat.lt_succ_of_lt (hAlt b hb')
      · rw [List.mem_singleton.mp hb']
        exact Nat.lt_succ_self _
    · exact hGid
    · exact hGr
    · exact hGlt
    · intro b hb
      rcases List.mem_append.mp hb with hb' | hb'
      · exact hFk b hb'
      · rw [List.mem_singleton.mp hb']
        exact ⟨dg, hdgmem, rfl⟩
    · intro g hg
      obtain ⟨w, hw, hwg⟩ := hNe g hg
      exact ⟨w, List.mem_append_left _ hw, hwg⟩
  | none =>
    rw [joinTail_eq_new hfind]
    have hnov : ∀ g ∈ s.groups, g.restaurantId ≠ v := by
      intro g hg
      have hng := List.find?_eq_none.mp hfind g hg
      simpa using hng
    refine ⟨?_, ?_, ?_, ?_, ?_, ?_, ?_, ?_⟩
    · intro b hb c hc heq
      rcases List.mem_append.mp hb with hb' | hb' <;>
        rcases List.mem_append.mp hc with hc' | hc'
      · exact hU b hb' c hc' heq
      · exfalso
        apply hu b hb'
        rw [heq, List.mem_singleton.mp hc']
      · exfalso
        apply hu c hc'
        rw [← heq, List.mem_singleton.mp hb']
      · rw [List.mem_singleton.mp hb', List.mem_singleton.mp hc']
    · intro b hb c hc heq
      rcases List.mem_append.mp hb with hb' | hb' <;>
        rcases List.mem_append.mp hc with hc' | hc'
      · exact hAid b hb' c hc' heq
      · exfalso
        have hlt := hAlt b hb'
        rw [heq, List.mem_singleton.mp hc'] at hlt
        exact lt_irrefl _ hlt
      · exfalso
        have hlt := hAlt c hc'
        rw [← heq, List.mem_singleton.mp hb'] at hlt
        exact lt_irrefl _ hlt
      · rw [List.mem_singleton.mp hb', List.mem_singleton.mp hc']
    · intro b hb
      rcases List.mem_append.mp hb with hb' | hb'
      · exact Nat.lt_succ_of_lt (hAlt b hb')
      · rw [List.mem_singleton.mp hb']
        exact Nat.lt_succ_self _
    · intro g hg g2 hg2 heq
      rcases List.mem_append.mp hg with hg' | hg' <;>
        rcases List.mem_append.mp hg2 with hg2' | hg2'
      · exact hGid g hg' g2 hg2' heq
      · exfalso
        have hlt := hGlt g hg'
        rw [heq, List.mem_singleton.mp hg2'] at hlt
        exact lt_irrefl _ hlt
      · exfalso
        have hlt := hGlt g2 hg2'
        rw [← heq, List.mem_singleton.mp hg'] at hlt
        exact lt_irrefl _ hlt
      · rw [List.mem_singleton.mp hg', List.mem_singleton.mp hg2']
    · intro g hg g2 hg2 heq
      rcases List.mem_append.mp hg with hg' | hg' <;>
        rcases List.mem_append.mp hg2 with hg2' | hg2'
      · exact hGr g hg' g2 hg2' heq
      · exfalso
        apply hnov g hg'
        rw [heq, List.mem_singleton.mp hg2']
      · exfalso
        apply hnov g2 hg2'
        rw [← heq, List.mem_singleton.mp hg']
      · rw [List.mem_singleton.mp hg', List.mem_singleton.mp hg2']
    · intro g hg
      rcases List.mem_append.mp hg with hg' | hg'
      · exact Nat.lt_succ_of_lt (hGlt g hg')
      · rw [List.mem_singleton.mp hg']
        exact Nat.lt_succ_self _
    · intro b hb
      rcases List.mem_append.mp hb with hb' | hb'
      · obtain ⟨g, hg, hgid⟩ := hFk b hb'
        exact ⟨g, List.mem_append_left _ hg, hgid⟩
      · rw [List.mem_singleton.mp hb']
        exact ⟨{ id := s.nextGroupId, restaurantId := v },
          List.mem_append_right _ (List.mem_singleton.mpr rfl), rfl⟩
    · intro g hg
      rcases List.mem_append.mp hg with hg' | hg'
      · obtain ⟨w, hw, hwg⟩ := hNe g hg'
        exact ⟨w, List.mem_append_left _ hw, hwg⟩
      · refine ⟨{ id := s.nextAttendeeId, userId := u, dinnerGroupId := s.nextGroupId },
          List.mem_append_right _ (List.mem_singleton.mpr rfl), ?_⟩
        rw [List.mem_singleton.mp hg']

/-- Joining preserves the store invariant. -/
theorem inv_join {s : Store} (u v : String) (h : Inv s) : Inv (joinDinnerGroup u v s) := by
  unfold joinDinnerGroup
  cases hf : s.attendees.find? (fun a => a.userId == u) with
  | none =>
    apply inv_joinTail h
    intro b hb
    have hnb := List.find?_eq_none.mp hf b hb
    simpa using hnb
  | some ea =>
    by_cases hbeq : (((s.groups.find? (fun g => g.id == ea.dinnerGroupId)).map
        DinnerGroup.restaurantId) == some v) = true
    · simp only [hbeq, if_true]
      exact h
    · rw [Bool.not_eq_true] at hbeq
      simp only [hbeq, Bool.false_eq_true, if_false]
      have hmem : ea ∈ s.attendees := List.mem_of_find?_eq_some hf
      have heaId : ea.userId = u := by simpa using List.find?_some hf
      obtain ⟨h1, h2⟩ := inv_remove hmem h
      apply inv_joinTail h1
      intro b hb
      rw [← heaId]
      exact h2 b hb

/-- Leaving preserves the store invariant. -/
theorem inv_leave {s : Store} (u : String) (h : Inv s) : Inv (leaveDinnerGroup u s) := by
  unfold leaveDinnerGroup
  cases hf : s.attendees.find? (fun a => a.userId == u) with
  | none => exact h
  | some a => exact (inv_remove (List.mem_of_find?_eq_some hf) h).1

/-- Each membership operation preserves the store invariant. -/
theorem inv_applyOp {s : Store} (op : MembershipOp) (h : Inv s) : Inv (applyOp s op) := by
  cases op with
  | join u v => exact inv_join u v h
  | leave u => exact inv_leave u h

/-- Any sequence of membership operations preserves the store invariant. -/
theorem inv_runOps (ops : List MembershipOp) (s : Store) (h : Inv s) :
    Inv (runOps s ops) := by
  induction ops generalizing s with
  | nil => exact h
  | cons op rest ih => exact ih (applyOp s op) (inv_applyOp op h)

/-- The empty store satisfies the invariant. -/
theorem inv_empty : Inv Store.empty := by
  refine ⟨?_, ?_, ?_, ?_, ?_, ?_, ?_, ?_⟩ <;> simp [Store.empty]

/-- C1: after any finite sequence of join and leave operations from the empty
membership state, each user has at most one attendee row and every persisted
dinner group has at least one attendee. -/
theorem membership_invariants (ops : List MembershipOp) :
    (∀ a ∈ (runOps Store.empty ops).attendees, ∀ b ∈ (runOps Store.empty ops).attendees,
      a.userId = b.userId → a = b) ∧
    (∀ g ∈ (runOps Store.empty ops).groups,
      ∃ a ∈ (runOps Store.empty ops).attendees, a.dinnerGroupId = g.id) := by
  have h := inv_runOps ops Store.empty inv_empty
  exact ⟨h.1, h.2.2.2.2.2.2.2⟩

/-- After the join tail runs on a store with no attendee row for the user, the
user is attached to the requested venue. -/
theorem currentVenue_joinTail {s : Store} {u v : String} (h : Inv s)
    (hu : ∀ b ∈ s.attendees, b.userId ≠ u) :
    currentVenue (joinTail s u v) u = some v := by
  obtain ⟨hU, hAid, hAlt, hGid, hGr, hGlt, hFk, hNe⟩ := h
  have hnofind : s.attendees.find? (fun a => a.userId == u) = none := by
    rw [List.find?_eq_none]
    intro x hx
    simpa using hu x hx
  cases hfind : s.groups.find? (fun g => g.restaurantId == v) with
  | some dg =>
    rw [joinTail_eq_found hfind]
    have hdgmem : dg ∈ s.groups := List.mem_of_find?_eq_some hfind
    have hdgv : dg.restaurantId = v := by simpa using List.find?_some hfind
    show ((s.attendees ++
        ([{ id := s.nextAttendeeId, userId := u, dinnerGroupId := dg.id }] :
          List Attendee)).find?
          (fun a => a.userId == u)).bind (fun a : Attendee =>
        (s.groups.find? (fun g => g.id == a.dinnerGroupId)).map
          DinnerGroup.restaurantId) = some v
    rw [List.find?_append, hnofind, Option.none_or,
      List.find?_cons_of_pos _ (by simp)]
    show (s.groups.find? (fun g => g.id == dg.id)).map DinnerGroup.restaurantId = some v
    cases hco : s.groups.find? (fun g => g.id == dg.id) with
    | none =>
      exfalso
      have hno := List.find?_eq_none.mp hco dg hdgmem
      simp at hno
    | some g2 =>
      have hg2mem := List.mem_of_find?_eq_some hco
      have hg2id : g2.id = dg.id := by simpa using List.find?_some hco
      have hg2eq : g2 = dg := hGid g2 hg2mem dg hdgmem hg2id
      rw [hg2eq]
      simp [hdgv]
  | none =>
    rw [joinTail_eq_new hfind]
    show ((s.attendees ++
        ([{ id := s.nextAttendeeId, userId := u, dinnerGroupId := s.nextGroupId }] :
          List Attendee)).find?
          (fun a => a.userId == u)).bind (fun a : Attendee =>
        ((s.groups ++ ([{ id := s.nextGroupId, restaurantId := v }] :
          List DinnerGroup)).find?
          (fun g => g.id == a.dinnerGroupId)).map DinnerGroup.restaurantId) = some v
    rw [List.find?_append, hnofind, Option.none_or,
      List.find?_cons_of_pos _ (by simp)]
    show ((s.groups ++ ([{ id := s.nextGroupId, restaurantId := v }] :
        List DinnerGroup)).find?
        (fun g => g.id == s.nextGroupId)).map DinnerGroup.restaurantId = some v
    have hnog : s.groups.find? (fun g => g.id == s.nextGroupId) = none := by
      rw [List.find?_eq_none]
      intro g hg
      have hlt := hGlt g hg
      simp only [beq_iff_eq]
      omega
    rw [List.find?_append, hnog, Option.none_or,
      List.find?_cons_of_pos _ (by simp)]
    rfl

/-- After any join on an invariant-satisfying store, the user is attached to
the requested venue. -/
theorem currentVenue_join {s : Store} (u v : String) (h : Inv s) :
    currentVenue (joinDinnerGroup u v s) u = some v := by
  unfold joinDinnerGroup
  cases hf : s.attendees.find? (fun a => a.userId == u) with
  | none =>
    apply currentVenue_joinTail h
    intro b hb
    have hnb := List.find?_eq_none.mp hf b hb
    simpa using hnb
  | some ea =>
    by_cases hbeq : (((s.groups.find? (fun g => g.id == ea.dinnerGroupId)).map
        DinnerGroup.restaurantId) == some v) = true
    · simp only [hbeq, if_true]
      unfold currentVenue
      rw [hf]
      simpa using eq_of_beq hbeq
    · rw [Bool.not_eq_true] at hbeq
      simp only [hbeq, Bool.false_eq_true, if_false]
      have hmem : ea ∈ s.attendees := List.mem_of_find?_eq_some hf
      have heaId : ea.userId = u := by simpa using List.find?_some hf
      obtain ⟨h1, h2⟩ := inv_remove hmem h
      apply currentVenue_joinTail h1
      intro b hb
      rw [← heaId]
      exact h2 b hb

/-- A join by a user already attached to that venue is a no-op. -/
theorem join_noop_of_attached {s : Store} {u v : String}
    (h : currentVenue s u = some v) : joinDinnerGroup u v s = s := by
  unfold currentVenue at h
  unfold joinDinnerGroup
  cases hf : s.attendees.find? (fun a => a.userId == u) with
  | none =>
    rw [hf] at h
    simp at h
  | some ea =>
    rw [hf] at h
    simp only [Option.some_bind] at h
    simp [h]

/-- C2: joining the same venue twice in sequence leaves the store identical to
joining it once; on an invariant-satisfying store the second call is a no-op. -/
theorem joinDinnerGroup_idempotent (u v : String) (s : Store) (h : Inv s) :
    joinDinnerGroup u v (joinDinnerGroup u v s) = joinDinnerGroup u v s :=
  join_noop_of_attached (currentVenue_join u v h)

/-- Witness for C2 at a concrete store in which user "u" already sits in the
group for venue "v". -/
theorem joinDinnerGroup_idempotent_witness :
    joinDinnerGroup "u" "w" (joinDinnerGroup "u" "w" cachedJoinedStore) =
      joinDinnerGroup "u" "w" cachedJoinedStore :=
  joinDinnerGroup_idempotent "u" "w" cachedJoinedStore (by unfold Inv; decide)

/-- The source comparator for the nearby sort agrees with the spec's
lexicographic order: rating descending, ties broken by distance ascending. -/
theorem nearbyLe_eq_spec : nearbyLe = nearbySpecLe := by
  funext a b
  unfold nearbyLe nearbySpecLe
  rcases lt_trichotomy (b.rating.getD 0) (a.rating.getD 0) with h | h | h
  · have h1 : b.rating.getD 0 - a.rating.getD 0 ≠ 0 := sub_ne_zero.mpr h.ne
    have h2 : b.rating.getD 0 - a.rating.getD 0 ≤ 0 := sub_nonpos.mpr h.le
    simp [h1, h2, h]
  · have h1 : b.rating.getD 0 - a.rating.getD 0 = 0 := sub_eq_zero.mpr h
    simp [h1, h, sub_nonpos]
  · have h1 : b.rating.getD 0 - a.rating.getD 0 ≠ 0 := sub_ne_zero.mpr h.ne'
    have h2 : ¬(b.rating.getD 0 - a.rating.getD 0 ≤ 0) := not_le.mpr (sub_pos.mpr h)
    simp [h1, h2, lt_asymm h, h.ne']

/-- The source comparator for the attendance sort agrees with the spec's order:
attendee count descending. -/
theorem attendanceLe_eq_spec : attendanceLe = attendanceSpecLe := by
  funext a b
  unfold attendanceLe attendanceSpecLe
  simp [sub_nonpos]

/-- The spec order for the nearby partition is transitive. -/
theorem nearbySpecLe_trans (a b c : RestaurantWithDetails)
    (hab : nearbySpecLe a b = true) (hbc : nearbySpecLe b c = true) :
    nearbySpecLe a c = true := by
  simp only [nearbySpecLe, Bool.or_eq_true, Bool.and_eq_true, decide_eq_true_eq,
    beq_iff_eq] at hab hbc ⊢
  rcases hab with h1 | ⟨h1, h2⟩ <;> rcases hbc with h3 | ⟨h3, h4⟩
  · exact Or.inl (h3.trans h1)
  · exact Or.inl (by rw [h3]; exact h1)
  · exact Or.inl (by rw [← h1]; exact h3)
  · exact Or.inr ⟨h3.trans h1, le_trans h2 h4⟩
/-- The spec order for the nearby partition is total. -/
theorem nearbySpecLe_total (a b : RestaurantWithDetails) :
    (nearbySpecLe a b || nearbySpecLe b a) = true := by
  simp only [nearbySpecLe, Bool.or_eq_true, Bool.and_eq_true, decide_eq_true_eq,
    beq_iff_eq]
  rcases lt_trichotomy (b.rating.getD 0) (a.rating.getD 0) with h | h | h
  · exact Or.inl (Or.inl h)
  · rcases le_total a.distance b.distance with hd | hd
    · exact Or.inl (Or.inr ⟨h, hd⟩)
    · exact Or.inr (Or.inr ⟨h.symm, hd⟩)
  · exact Or.inr (Or.inl h)

/-- The spec order for the attendance partition is transitive. -/
theorem attendanceSpecLe_trans (a b c : RestaurantWithDetails)
    (hab : attendanceSpecLe a b = true) (hbc : attendanceSpecLe b c = true) :
    attendanceSpecLe a c = true := by
  simp only [attendanceSpecLe, decide_eq_true_eq] at hab hbc ⊢
  exact le_trans hbc hab

/-- The spec order for the attendance partition is total. -/
theorem attendanceSpecLe_total (a b : RestaurantWithDetails) :
    (attendanceSpecLe a b || attendanceSpecLe b a) = true := by
  simp only [attendanceSpecLe, Bool.or_eq_true, decide_eq_true_eq]
  exact Nat.le_total b.attendeeCount a.attendeeCount

/-- The three sequential optional filters of the loader collapse to the single
combined spec predicate. -/
theorem restaurantsNearby_eq_spec (f : Filters) (allRestaurants : List RestaurantWithDetails) :
    restaurantsNearby f allRestaurants =
      (((allRestaurants.filter (fun r => r.attendeeCount == 0)).filter
        (nearbySpecPred f)).mergeSort nearbySpecLe).take 15 := by
  unfold restaurantsNearby
  rw [← nearbyLe_eq_spec]
  unfold nearbySpecPred
  rcases f with ⟨dp, rp, pp⟩
  cases dp <;> cases rp <;> cases pp <;>
    simp only [List.filter_filter] <;>
    exact congrArg (fun l : List RestaurantWithDetails => (l.mergeSort nearbyLe).take 15)
      (List.filter_congr (fun r hr => by
        simp [Bool.and_assoc, Bool.and_comm, Bool.and_left_comm]))

/-- C5: the nearby partition equals the zero-attendee venues filtered by the
combined optional predicates (maximum distance inclusive, minimum rating
inclusive with missing rating as 0, exact price tier with missing tier
excluded), stably sorted by rating descending with distance-ascending
tie-break, truncated to the first 15; consequently it is sorted in that order
and holds at most 15 entries. -/
theorem nearby_partition_pipeline (f : Filters) (allRestaurants : List RestaurantWithDetails) :
    restaurantsNearby f allRestaurants =
      (((allRestaurants.filter (fun r => r.attendeeCount == 0)).filter
        (nearbySpecPred f)).mergeSort nearbySpecLe).take 15 ∧
    List.Pairwise (fun a b =>
        b.rating.getD 0 < a.rating.getD 0 ∨
        (b.rating.getD 0 = a.rating.getD 0 ∧ a.distance ≤ b.distance))
      (restaurantsNearby f allRestaurants) ∧
    (restaurantsNearby f allRestaurants).length ≤ 15 := by
  have heq := restaurantsNearby_eq_spec f allRestaurants
  refine ⟨heq, ?_, ?_⟩
  · rw [heq]
    have hsorted := List.sorted_mergeSort nearbySpecLe_trans
      nearbySpecLe_total
      ((allRestaurants.filter (fun r => r.attendeeCount == 0)).filter (nearbySpecPred f))
    have htake := List.Pairwise.sublist (List.take_sublist 15 _) hsorted
    refine htake.imp ?_
    intro a b hab
    simpa only [nearbySpecLe, Bool.or_eq_true, Bool.and_eq_true, decide_eq_true_eq,
      beq_iff_eq] using hab
  · rw [heq]
    exact List.length_take_le 15 _

/-- C6: the attendance partition is exactly the venues with a positive attendee
count, stably sorted by attendee count descending, unfiltered and uncapped (it
is a permutation of that whole filter); every zero-attendee venue lands in the
nearby partition's base list instead. -/
theorem attendance_partition (allRestaurants : List RestaurantWithDetails) :
    restaurantsWithAttendance allRestaurants =
      (allRestaurants.filter (fun r => decide (r.attendeeCount > 0))).mergeSort
        attendanceSpecLe ∧
    (restaurantsWithAttendance allRestaurants).Perm
      (allRestaurants.filter (fun r => decide (r.attendeeCount > 0))) ∧
    List.Pairwise (fun a b => b.attendeeCount ≤ a.attendeeCount)
      (restaurantsWithAttendance allRestaurants) ∧
    (∀ r ∈ allRestaurants, r.attendeeCount = 0 →
      r ∉ restaurantsWithAttendance allRestaurants ∧
        r ∈ allRestaurants.filter (fun x => x.attendeeCount == 0)) := by
  have heq : restaurantsWithAttendance allRestaurants =
      (allRestaurants.filter (fun r => decide (r.attendeeCount > 0))).mergeSort
        attendanceSpecLe := by
    unfold restaurantsWithAttendance
    rw [attendanceLe_eq_spec]
  refine ⟨heq, ?_, ?_, ?_⟩
  · rw [heq]
    exact List.mergeSort_perm _ _
  · rw [heq]
    have hsorted := List.sorted_mergeSort attendanceSpecLe_trans
      attendanceSpecLe_total
      (allRestaurants.filter (fun r => decide (r.attendeeCount > 0)))
    refine hsorted.imp ?_
    intro a b hab
    simpa only [attendanceSpecLe, decide_eq_true_eq] using hab
  · intro r hr hzero
    constructor
    · intro hmem
      rw [heq] at hmem
      have hf := List.mem_filter.mp (List.mem_mergeSort.mp hmem)
      rw [hzero] at hf
      simp at hf
    · exact List.mem_filter.mpr ⟨hr, by simp [hzero]⟩

/-- C10: in the combined result, the membership flag holds for at most one
venue when the database restaurant ids are unique, and for none when no user
id is supplied. -/
theorem isUserAttending_at_most_one (distf : ℚ → ℚ → ℚ → ℚ → ℚ) (userLat userLng : ℚ)
    (s : Store) (dbRestaurants : List DbRestaurant) (userId : Option String)
    (hids : (dbRestaurants.map DbRestaurant.id).Nodup) :
    ((getAllRestaurantDetails distf userLat userLng s dbRestaurants userId).countP
      (fun r => r.isUserAttending)) ≤ 1 ∧
    (userId = none →
      ∀ r ∈ getAllRestaurantDetails distf userLat userLng s dbRestaurants userId,
        r.isUserAttending = false) := by
  constructor
  · unfold getAllRestaurantDetails
    rw [List.countP_map]
    cases huid : (match userId with
        | some uid => currentVenue s uid
        | none => none : Option String) with
    | none =>
      rw [List.countP_eq_zero.mpr]
      · exact Nat.zero_le 1
      · intro x hx
        simp [huid]
    | some venueId =>
      have hcount : (dbRestaurants.countP
          (fun x => venueId == DbRestaurant.id x)) ≤ 1 := by
        have hc := List.nodup_iff_count_le_one.mp hids venueId
        rw [List.count_eq_countP, List.countP_map] at hc
        calc dbRestaurants.countP (fun x => venueId == DbRestaurant.id x)
            = dbRestaurants.countP ((fun x => x == venueId) ∘ DbRestaurant.id) :=
              List.countP_congr (fun x _ => by
                simp only [Function.comp, beq_iff_eq]
                exact eq_comm)
          _ ≤ 1 := hc
      calc dbRestaurants.countP _
          = dbRestaurants.countP (fun x => venueId == DbRestaurant.id x) :=
            List.countP_congr (fun x _ => by simp [huid])
        _ ≤ 1 := hcount
  · intro hnone r hmem
    unfold getAllRestaurantDetails at hmem
    rw [hnone] at hmem
    obtain ⟨x, hx, hxr⟩ := List.mem_map.mp hmem
    rw [← hxr]
    rfl

/-- Witness for C10 at a concrete database of two distinct venues and no
requesting user. -/
theorem isUserAttending_at_most_one_witness :
    ((getAllRestaurantDetails (fun _ _ _ _ => 0) 0 0 Store.empty
      [{ id := "a", name := "A", priceLevel := none, rating := none, lat := 0, lng := 0,
         photoRef := none, mapsUrl := none },
       { id := "b", name := "B", priceLevel := none, rating := none, lat := 1, lng := 1,
         photoRef := none, mapsUrl := none }] none).countP
      (fun r => r.isUserAttending)) ≤ 1 ∧
    ((none : Option String) = none →
      ∀ r ∈ getAllRestaurantDetails (fun _ _ _ _ => 0) 0 0 Store.empty
        [{ id := "a", name := "A", priceLevel := none, rating := none, lat := 0, lng := 0,
           photoRef := none, mapsUrl := none },
         { id := "b", name := "B", priceLevel := none, rating := none, lat := 1, lng := 1,
           photoRef := none, mapsUrl := none }] none,
        r.isUserAttending = false) :=
  isUserAttending_at_most_one (fun _ _ _ _ => 0) 0 0 Store.empty
    [{ id := "a", name := "A", priceLevel := none, rating := none, lat := 0, lng := 0,
       photoRef := none, mapsUrl := none },
     { id := "b", name := "B", priceLevel := none, rating := none, lat := 1, lng := 1,
       photoRef := none, mapsUrl := none }] none (by decide)

end DinnerApp
